import Mathlib

/-!
Shallow embedding of `src/main.rs` (a food-delivery workflow: carts, payment,
rider matching, order orchestration).

Modelling conventions:
* Rust `usize` amounts (prices, quantities, balances) are `Nat`; the claims
  under study never exercise overflow (the only subtraction is guarded by
  `balance >= amount`).
* `i32` coordinates are `Int`.
* `Location::distance_to` returns `sqrt(dx^2+dy^2)` as `f64`; `match_rider`
  only ever *compares* distances, and `sqrt` is strictly monotone on
  non-negative reals, so we embed the exact squared distance `dist2 : Int`
  and compare those.  The initial `min_d = f64::MAX` is embedded as
  `Option Int` with `none` for "not yet set" (any real distance compares
  below `f64::MAX`).
* Rust `HashMap<String, V>` fields are association lists with
  `List.lookup` / key-wise update; the source never relies on iteration
  order in a way the claims can observe (sums are order-independent).
* Trait objects: `Gpay` is the sole `PaymentInstrument` impl and `Cart` the
  sole `CartInstrument` impl, so they are embedded concretely.  A
  `NotificationInstrument` is any `notify : String → Except CustomError Unit`
  (the `Email` impl always succeeds, but the orchestrator is generic).
-/

set_option maxHeartbeats 1000000

namespace ZomatoModel

/-- `enum CustomError` from the source. -/
inductive CustomError where
  | NotificationError : CustomError
  | PaymentError : CustomError
  | OrderError : CustomError
  | RiderError : CustomError
  | Other : String → CustomError
deriving DecidableEq, Repr

/-- `struct Location(i32, i32)`. -/
structure Location where
  x : Int
  y : Int
deriving DecidableEq, Repr

/-- Squared Euclidean distance; stands in for `Location::distance_to`
(which returns the `f64` square root) in all comparisons, since `sqrt` is
strictly monotone. -/
def dist2 (a b : Location) : Int :=
  (a.x - b.x) * (a.x - b.x) + (a.y - b.y) * (a.y - b.y)

/-- `struct User`. -/
structure User where
  id : String
  name : String
  location : Location
deriving Repr

/-- `struct Item`. -/
structure Item where
  id : String
  price : Nat
deriving DecidableEq, Repr

/-- Key-wise overwrite on an association list: models mutating the value
behind `HashMap::get_mut`. -/
def alUpdate (m : List (String × α)) (k : String) (v : α) : List (String × α) :=
  m.map fun p => if p.1 == k then (k, v) else p

/-- `struct Cart { items: HashMap<String, usize> }`. -/
structure Cart where
  items : List (String × Nat)
deriving DecidableEq, Repr

/-- `Cart::new`. -/
def Cart.new : Cart := ⟨[]⟩

/-- `Cart::add`: `*self.items.entry(item.id).or_insert(0) += 1`. -/
def Cart.add (c : Cart) (item : Item) : Cart :=
  match c.items.lookup item.id with
  | none => ⟨(item.id, 1) :: c.items⟩
  | some q => ⟨alUpdate c.items item.id (q + 1)⟩

/-- `Cart::remove`: decrement if quantity `> 1`, delete the entry otherwise;
no-op when the item is absent. -/
def Cart.remove (c : Cart) (item : Item) : Cart :=
  match c.items.lookup item.id with
  | none => c
  | some q =>
    if q > 1 then ⟨alUpdate c.items item.id (q - 1)⟩
    else ⟨c.items.filter fun p => p.1 != item.id⟩

/-- `Cart::clear`. -/
def Cart.clear (_ : Cart) : Cart := ⟨[]⟩

/-- `struct Gpay` (the sole `PaymentInstrument` implementation). -/
structure Gpay where
  id : String
  balance : Nat
deriving DecidableEq, Repr

/-- `Gpay::pay`: on `balance >= amount`, decrement and return the new
balance; otherwise `Err(PaymentError)` leaving the account untouched.
Returned pair is (result, account after the call), mirroring `&mut self`. -/
def Gpay.pay (g : Gpay) (amount : Nat) : Except CustomError Nat × Gpay :=
  if amount ≤ g.balance then
    (Except.ok (g.balance - amount), { g with balance := g.balance - amount })
  else
    (Except.error CustomError.PaymentError, g)

/-! ### Cart operation sequences -/

/-- The three `CartInstrument` mutators. -/
inductive CartOp where
  | add : Item → CartOp
  | remove : Item → CartOp
  | clear : CartOp

def applyCartOp (c : Cart) : CartOp → Cart
  | CartOp.add i => c.add i
  | CartOp.remove i => c.remove i
  | CartOp.clear => c.clear

def applyCartOps (c : Cart) (ops : List CartOp) : Cart :=
  ops.foldl applyCartOp c

/-- Invariant: every entry present in the cart has quantity at least 1. -/
def cartWF (c : Cart) : Prop := ∀ p ∈ c.items, 1 ≤ p.2

/-! ### Rider matching -/

/-- `struct Rider`. -/
structure Rider where
  id : String
  location : Option Location
  target_location : Option Location
  is_available : Bool
deriving DecidableEq, Repr

/-- `Rider::new`. -/
def Rider.new (id : String) : Rider := ⟨id, none, none, true⟩

/-- `Rider::update`: set the current location; availability untouched. -/
def Rider.update (r : Rider) (location : Location) : Rider :=
  { r with location := some location }

/-- `Rider::accept_ride`: record the target and flip to unavailable. -/
def Rider.accept_ride (r : Rider) (target_location : Location) : Rider :=
  { r with target_location := some target_location, is_available := false }

/-- `struct RiderMatchingService { riders: Vec<Rider> }`. -/
structure RiderMatchingService where
  riders : List Rider
deriving DecidableEq, Repr

/-- `RiderMatchingService::push`. -/
def RiderMatchingService.push (s : RiderMatchingService) (r : Rider) :
    RiderMatchingService :=
  ⟨s.riders ++ [r]⟩

/-- Rust's `.iter().enumerate()`, from a starting index. -/
def enumFromNat (n : Nat) : List α → List (Nat × α)
  | [] => []
  | a :: l => (n, a) :: enumFromNat (n + 1) l

/-- One iteration of the minimum scan inside `match_rider`: a rider with no
location is skipped; otherwise its (squared) distance to the target is
compared against the running minimum, where `none` embeds the initial
`f64::MAX` (every actual distance is below it). -/
def scanStep (target : Location) (acc : Nat × Option Int) (p : Nat × Rider) :
    Nat × Option Int :=
  match p.2.location with
  | none => acc
  | some loc =>
    let c := dist2 loc target
    match acc.2 with
    | none => (p.1, some c)
    | some d => if c < d then (p.1, some c) else acc

/-- `RiderMatchingService::match_rider`.  Collect the available riders with
their indices; fail if there are none; otherwise scan for the strictly
closest located one (the initial candidate index is the first available
rider's, kept when no located rider is seen), flip it via `accept_ride`,
and return it.  The inner `none` branch models the (unreachable) index
panic of `self.riders[min_idx]`. -/
def RiderMatchingService.match_rider (s : RiderMatchingService) (target : Location) :
    Except CustomError (Rider × RiderMatchingService) :=
  match (enumFromNat 0 s.riders).filter (fun p => p.2.is_available) with
  | [] => Except.error CustomError.RiderError
  | (i0, r0) :: rest =>
    let res := ((i0, r0) :: rest).foldl (scanStep target) (i0, none)
    match s.riders[res.1]? with
    | none => Except.error (CustomError.Other "index out of bounds")
    | some r =>
      let r2 := r.accept_ride target
      Except.ok (r2, ⟨s.riders.set res.1 r2⟩)

/-- Optional squared distance of a rider to the target. -/
def ldist (t : Location) (r : Rider) : Option Int :=
  r.location.map fun loc => dist2 loc t

/-! ### Rider pool operation sequences -/

/-- The operations the core exposes on the rider pool: registering a rider
and attempting a match (which leaves the pool unchanged on failure). -/
inductive PoolOp where
  | push : Rider → PoolOp
  | tryMatch : Location → PoolOp

def applyPoolOp (s : RiderMatchingService) : PoolOp → RiderMatchingService
  | PoolOp.push r => s.push r
  | PoolOp.tryMatch t =>
    match s.match_rider t with
    | Except.ok (_, s2) => s2
    | Except.error _ => s

def applyPoolOps (s : RiderMatchingService) (ops : List PoolOp) :
    RiderMatchingService :=
  ops.foldl applyPoolOp s

/-- Slot `j` of the pool holds a rider that is not available. -/
def unavailAt (s : RiderMatchingService) (j : Nat) : Prop :=
  ∃ r, s.riders[j]? = some r ∧ r.is_available = false

/-! ### Order orchestration -/

/-- A `NotificationInstrument` trait object is any `notify` function; the
source's `Email` impl always succeeds, but `Zomato::process_order` is
generic over the trait. -/
structure NotifInstr where
  notify : String → Except CustomError Unit

/-- `impl NotificationInstrument for Email`: always `Ok(())`. -/
def emailInstr (_id : String) : NotifInstr :=
  ⟨fun _ => Except.ok ()⟩

/-- `struct Restaurant`. -/
structure Restaurant where
  id : String
  name : String
  location : Location
  menu : List (String × Nat)

/-- `struct Zomato`: the managers' `HashMap<String, Box<dyn ...>>` fields
as user-id-keyed association lists. -/
structure Zomato where
  notification_manager : List (String × NotifInstr)
  payment_manager : List (String × Gpay)
  cart_manager : List (String × Cart)
  rider_service : RiderMatchingService
  restaurants : List (String × Restaurant)

/-- The bill total of `process_order`: menu price times quantity per cart
entry, `.unwrap_or(0)` pricing an item absent from the menu at zero. -/
def computeTotal (cart : Cart) (menu : List (String × Nat)) : Nat :=
  (cart.items.map fun p =>
    match menu.lookup p.1 with
    | some price => price * p.2
    | none => 0).sum

/-- The confirmation message built by the `format!` in `process_order`. -/
def orderMessage (total : Nat) (rname : String) (riderId : String)
    (balance : Nat) : String :=
  "Order of " ++ toString total ++ " from " ++ rname ++ " processed. Rider " ++
    riderId ++ " assigned. Balance: " ++ toString balance

/-- `Zomato::process_order`, threading the state each step mutates; a
failing step aborts via `?` with the mutations already performed kept
(payment capture and rider flip are not rolled back).  On a payment error
the account is written back unchanged, as the failed `pay` leaves
`&mut self` untouched. -/
def Zomato.process_order (z : Zomato) (user : User) (restaurant_id : String) :
    Except CustomError Unit × Zomato :=
  match z.cart_manager.lookup user.id with
  | none => (Except.error CustomError.OrderError, z)
  | some cart =>
    match z.restaurants.lookup restaurant_id with
    | none => (Except.error CustomError.OrderError, z)
    | some restaurant =>
      let total := computeTotal cart restaurant.menu
      match z.payment_manager.lookup user.id with
      | none => (Except.error CustomError.PaymentError, z)
      | some gpay =>
        let pres := gpay.pay total
        let z1 := { z with payment_manager := alUpdate z.payment_manager user.id pres.2 }
        match pres.1 with
        | Except.error e => (Except.error e, z1)
        | Except.ok balance =>
          match z1.rider_service.match_rider user.location with
          | Except.error e => (Except.error e, z1)
          | Except.ok (rider, rs2) =>
            let z2 := { z1 with rider_service := rs2 }
            match z2.notification_manager.lookup user.id with
            | none => (Except.error CustomError.NotificationError, z2)
            | some chan =>
              match chan.notify
                  (orderMessage total restaurant.name rider.id balance) with
              | Except.error e => (Except.error e, z2)
              | Except.ok _ =>
                (Except.ok (),
                  { z2 with
                    cart_manager := alUpdate z2.cart_manager user.id cart.clear })

/-! ### The spec's wording of the bill total -/

/-- The total as the spec words it: the sum of `price × quantity` over the
cart entries resolvable in the restaurant's menu. -/
def specResolvableTotal (cart : Cart) (menu : List (String × Nat)) : Nat :=
  (cart.items.filterMap fun p =>
    (menu.lookup p.1).map fun price => price * p.2).sum

/-! ### A failing notification instrument -/

/-- A notification instrument whose `notify` always fails with the
delivery-failure kind; the `NotificationInstrument` trait permits this
(the orchestrator is generic over the boxed instrument). -/
def failingInstr : NotifInstr :=
  ⟨fun _ => Except.error CustomError.NotificationError⟩

/-! ## Theorems

### Claim C6: Gpay.pay -/

/-- C6: `pay(amount)` fails with the payment error and leaves the balance
unchanged when `balance < amount`; otherwise it decrements the balance by
`amount` and returns the new balance. -/
theorem c6_pay_spec (g : Gpay) (amount : Nat) :
    (g.balance < amount →
      g.pay amount = (Except.error CustomError.PaymentError, g)) ∧
    (amount ≤ g.balance →
      g.pay amount =
        (Except.ok (g.balance - amount), { g with balance := g.balance - amount })) := by
  constructor
  · intro h
    simp [Gpay.pay, Nat.not_le.mpr h]
  · intro h
    simp [Gpay.pay, h]

/-- C6 witness: balance 10 paying 24 fails with the balance still 10. -/
theorem c6_pay_spec_witness :
    Gpay.pay ⟨"shivank", 10⟩ 24 = (Except.error CustomError.PaymentError, ⟨"shivank", 10⟩) :=
  (c6_pay_spec ⟨"shivank", 10⟩ 24).1 (by decide)

theorem lookup_alUpdate {α : Type} (m : List (String × α)) (k : String) (v : α) :
    (alUpdate m k v).lookup k = (m.lookup k).map fun _ => v := by
  induction m with
  | nil => rfl
  | cons p rest ih =>
    simp only [alUpdate, List.map_cons]
    by_cases h : (p.1 == k) = true
    · rw [if_pos h]
      have hk : p.1 = k := by simpa using h
      have h2 : (k == p.1) = true := by simp [hk]
      simp [List.lookup, h2]
    · rw [if_neg h]
      have h1 : (p.1 == k) = false := by simpa using h
      have h2 : (k == p.1) = false := by
        have : p.1 ≠ k := by simpa using h
        simp [Ne.symm this]
      simp only [List.lookup, h2]
      exact ih

theorem lookup_filter_ne {α : Type} (m : List (String × α)) (k : String) :
    (m.filter fun p => p.1 != k).lookup k = none := by
  induction m with
  | nil => rfl
  | cons p rest ih =>
    by_cases h : p.1 = k
    · simp [List.filter, h, ih]
    · have h1 : (p.1 != k) = true := by simp [h]
      have h2 : (k == p.1) = false := by simp [Ne.symm h]
      simp [List.filter, h1, List.lookup, h2, ih]

theorem cartWF_add (c : Cart) (i : Item) (h : cartWF c) : cartWF (c.add i) := by
  unfold Cart.add
  cases hl : c.items.lookup i.id with
  | none =>
    intro p hp
    rcases List.mem_cons.mp hp with h1 | h1
    · simp [h1]
    · exact h p h1
  | some q =>
    intro p hp
    rcases List.mem_map.mp hp with ⟨p0, hp0, hval⟩
    by_cases hk : (p0.1 == i.id) = true
    · rw [if_pos hk] at hval
      subst hval
      show 1 ≤ q + 1
      omega
    · rw [if_neg hk] at hval
      subst hval
      exact h p0 hp0

theorem cartWF_remove (c : Cart) (i : Item) (h : cartWF c) : cartWF (c.remove i) := by
  unfold Cart.remove
  cases hl : c.items.lookup i.id with
  | none => exact h
  | some q =>
    by_cases hq : q > 1
    · simp only [hq, if_true]
      intro p hp
      rcases List.mem_map.mp hp with ⟨p0, hp0, hval⟩
      by_cases hk : (p0.1 == i.id) = true
      · rw [if_pos hk] at hval
        subst hval
        show 1 ≤ q - 1
        omega
      · rw [if_neg hk] at hval
        subst hval
        exact h p0 hp0
    · simp only [hq, if_false]
      intro p hp
      exact h p (List.mem_of_mem_filter hp)

theorem cartWF_applyOps (ops : List CartOp) (c : Cart) (h : cartWF c) :
    cartWF (applyCartOps c ops) := by
  induction ops generalizing c with
  | nil => exact h
  | cons op rest ih =>
    apply ih
    cases op with
    | add i => exact cartWF_add c i h
    | remove i => exact cartWF_remove c i h
    | clear => intro p hp; cases hp

/-- C8: every cart reachable from the empty cart by add/remove/clear keeps
all present quantities at least 1; `remove` deletes an entry at quantity 1,
decrements an entry at quantity above 1, and is a no-op on an absent item. -/
theorem c8_cart_ops (ops : List CartOp) (c : Cart) (item : Item) :
    cartWF (applyCartOps Cart.new ops) ∧
    (c.items.lookup item.id = some 1 →
      (c.remove item).items.lookup item.id = none) ∧
    (∀ q, c.items.lookup item.id = some q → 1 < q →
      (c.remove item).items.lookup item.id = some (q - 1)) ∧
    (c.items.lookup item.id = none → c.remove item = c) := by
  refine ⟨cartWF_applyOps ops Cart.new (by intro p hp; cases hp), ?_, ?_, ?_⟩
  · intro hl
    simp [Cart.remove, hl, lookup_filter_ne]
  · intro q hl hq
    simp [Cart.remove, hl, hq, lookup_alUpdate]
  · intro hl
    simp [Cart.remove, hl]

/-- C8 witness: concrete runs of the three `remove` behaviors and the
reachable-state invariant. -/
theorem c8_cart_ops_witness :
    cartWF (applyCartOps Cart.new [CartOp.add ⟨"a", 5⟩, CartOp.add ⟨"a", 5⟩]) ∧
    ((Cart.mk [("a", 1)]).remove ⟨"a", 5⟩).items.lookup "a" = none ∧
    ((Cart.mk [("a", 3)]).remove ⟨"a", 5⟩).items.lookup "a" = some 2 ∧
    (Cart.mk [("b", 2)]).remove ⟨"a", 5⟩ = Cart.mk [("b", 2)] := by
  refine ⟨(c8_cart_ops [CartOp.add ⟨"a", 5⟩, CartOp.add ⟨"a", 5⟩] ⟨[("a", 1)]⟩ ⟨"a", 5⟩).1,
    (c8_cart_ops [] ⟨[("a", 1)]⟩ ⟨"a", 5⟩).2.1 (by decide),
    (c8_cart_ops [] ⟨[("a", 3)]⟩ ⟨"a", 5⟩).2.2.1 3 (by decide) (by decide),
    (c8_cart_ops [] ⟨[("b", 2)]⟩ ⟨"a", 5⟩).2.2.2 (by decide)⟩

theorem mem_enumFromNat {l : List α} :
    ∀ {n : Nat} {p : Nat × α}, p ∈ enumFromNat n l →
      n ≤ p.1 ∧ l[p.1 - n]? = some p.2 := by
  induction l with
  | nil => intro n p hp; cases hp
  | cons a l ih =>
    intro n p hp
    rcases List.mem_cons.mp hp with h1 | h1
    · subst h1
      simp
    · rcases ih h1 with ⟨hle, hget⟩
      constructor
      · omega
      · have hidx : p.1 - n = (p.1 - (n + 1)) + 1 := by omega
        rw [hidx]
        simpa using hget

theorem enumFromNat_mem_of_getElem {l : List α} :
    ∀ {k n : Nat} {a : α}, l[k]? = some a → (n + k, a) ∈ enumFromNat n l := by
  induction l with
  | nil => intro k n a h; simp at h
  | cons b l ih =>
    intro k n a h
    cases k with
    | zero =>
      simp at h
      subst h
      simp [enumFromNat]
    | succ k =>
      simp at h
      have := ih (n := n + 1) h
      have harith : n + (k + 1) = (n + 1) + k := by omega
      rw [harith]
      exact List.mem_cons_of_mem _ this

theorem pairwise_enumFromNat (l : List α) :
    ∀ n : Nat, (enumFromNat n l).Pairwise (fun p q => p.1 < q.1) := by
  induction l with
  | nil => intro n; exact List.Pairwise.nil
  | cons a l ih =>
    intro n
    refine List.Pairwise.cons ?_ (ih (n + 1))
    intro q hq
    have := (mem_enumFromNat hq).1
    show n < q.1
    omega

/-- Scanning from an already-set minimum `(m, some d)`: the result is the
running minimum of `d` and the located distances, and the index moves only
to a strictly closer, earliest such rider. -/
theorem foldl_scan_some (t : Location) :
    ∀ (l : List (Nat × Rider)) (m : Nat) (d : Int),
      (∀ p ∈ l, m < p.1) →
      l.Pairwise (fun p q => p.1 < q.1) →
      ∃ m' d', l.foldl (scanStep t) (m, some d) = (m', some d') ∧
        d' ≤ d ∧
        (∀ p ∈ l, ∀ c, ldist t p.2 = some c → d' ≤ c) ∧
        ((m' = m ∧ d' = d) ∨ (∃ r, (m', r) ∈ l ∧ ldist t r = some d' ∧ d' < d)) ∧
        (∀ p ∈ l, ∀ c, ldist t p.2 = some c → p.1 < m' → d' < c) := by
  intro l
  induction l with
  | nil =>
    intro m d _ _
    exact ⟨m, d, rfl, le_refl d, by simp, Or.inl ⟨rfl, rfl⟩, by simp⟩
  | cons p l ih =>
    intro m d hm hpw
    obtain ⟨hhead, htail⟩ := List.pairwise_cons.mp hpw
    cases hploc : p.2.location with
    | none =>
      have hstep : scanStep t (m, some d) p = (m, some d) := by simp [scanStep, hploc]
      rw [List.foldl_cons, hstep]
      obtain ⟨m', d', heq, hle, hmin, hB, hstrict⟩ :=
        ih m d (fun q hq => hm q (List.mem_cons_of_mem _ hq)) htail
      refine ⟨m', d', heq, hle, ?_, ?_, ?_⟩
      · intro q hq c hc
        rcases List.mem_cons.mp hq with h1 | h1
        · subst h1; simp [ldist, hploc] at hc
        · exact hmin q h1 c hc
      · rcases hB with h | ⟨r, hr, h1, h2⟩
        · exact Or.inl h
        · exact Or.inr ⟨r, List.mem_cons_of_mem _ hr, h1, h2⟩
      · intro q hq c hc hlt
        rcases List.mem_cons.mp hq with h1 | h1
        · subst h1; simp [ldist, hploc] at hc
        · exact hstrict q h1 c hc hlt
    | some loc =>
      by_cases hcd : dist2 loc t < d
      · have hstep : scanStep t (m, some d) p = (p.1, some (dist2 loc t)) := by
          simp [scanStep, hploc, hcd]
        rw [List.foldl_cons, hstep]
        obtain ⟨m', d', heq, hle, hmin, hB, hstrict⟩ :=
          ih p.1 (dist2 loc t) hhead htail
        refine ⟨m', d', heq, le_of_lt (lt_of_le_of_lt hle hcd), ?_, ?_, ?_⟩
        · intro q hq c hc
          rcases List.mem_cons.mp hq with h1 | h1
          · subst h1
            simp [ldist, hploc] at hc
            omega
          · exact hmin q h1 c hc
        · rcases hB with ⟨hm', hd'⟩ | ⟨r, hr, h1, h2⟩
          · subst hm'
            subst hd'
            exact Or.inr ⟨p.2, Prod.mk.eta ▸ List.mem_cons_self p l,
              by simp [ldist, hploc], hcd⟩
          · exact Or.inr ⟨r, List.mem_cons_of_mem _ hr, h1, lt_trans h2 hcd⟩
        · intro q hq c hc hlt
          rcases List.mem_cons.mp hq with h1 | h1
          · subst h1
            simp [ldist, hploc] at hc
            rcases hB with ⟨hm', _⟩ | ⟨r, hr, h1, h2⟩
            · subst hm'; omega
            · omega
          · exact hstrict q h1 c hc hlt
      · have hdc : d ≤ dist2 loc t := not_lt.mp hcd
        have hstep : scanStep t (m, some d) p = (m, some d) := by
          simp [scanStep, hploc, hcd]
        rw [List.foldl_cons, hstep]
        obtain ⟨m', d', heq, hle, hmin, hB, hstrict⟩ :=
          ih m d (fun q hq => hm q (List.mem_cons_of_mem _ hq)) htail
        refine ⟨m', d', heq, hle, ?_, ?_, ?_⟩
        · intro q hq c hc
          rcases List.mem_cons.mp hq with h1 | h1
          · subst h1
            simp [ldist, hploc] at hc
            omega
          · exact hmin q h1 c hc
        · rcases hB with h | ⟨r, hr, h1, h2⟩
          · exact Or.inl h
          · exact Or.inr ⟨r, List.mem_cons_of_mem _ hr, h1, h2⟩
        · intro q hq c hc hlt
          rcases List.mem_cons.mp hq with h1 | h1
          · rw [h1] at hc hlt
            simp [ldist, hploc] at hc
            rcases hB with ⟨hm', _⟩ | ⟨r, hr, hl1, hl2⟩
            · subst hm'
              have hmem := hm p (List.mem_cons_self p l)
              omega
            · omega
          · exact hstrict q h1 c hc hlt

/-- Scanning from the initial accumulator `(m0, none)` (`f64::MAX`): either
no scanned rider is located and the accumulator is returned untouched, or
the result is the earliest located rider of minimal distance. -/
theorem foldl_scan_none (t : Location) :
    ∀ (l : List (Nat × Rider)) (m0 : Nat),
      l.Pairwise (fun p q => p.1 < q.1) →
      (l.foldl (scanStep t) (m0, none) = (m0, none) ∧ ∀ p ∈ l, ldist t p.2 = none) ∨
      (∃ m' d' r', l.foldl (scanStep t) (m0, none) = (m', some d') ∧
        (m', r') ∈ l ∧ ldist t r' = some d' ∧
        (∀ p ∈ l, ∀ c, ldist t p.2 = some c → d' ≤ c) ∧
        (∀ p ∈ l, ∀ c, ldist t p.2 = some c → p.1 < m' → d' < c)) := by
  intro l
  induction l with
  | nil => intro m0 _; exact Or.inl ⟨rfl, by simp⟩
  | cons p l ih =>
    intro m0 hpw
    obtain ⟨hhead, htail⟩ := List.pairwise_cons.mp hpw
    cases hploc : p.2.location with
    | none =>
      have hstep : scanStep t (m0, none) p = (m0, none) := by simp [scanStep, hploc]
      rw [List.foldl_cons, hstep]
      rcases ih m0 htail with ⟨heq, hall⟩ | ⟨m', d', r', heq, hmem, hld, hmin, hstrict⟩
      · refine Or.inl ⟨heq, ?_⟩
        intro q hq
        rcases List.mem_cons.mp hq with h1 | h1
        · subst h1; simp [ldist, hploc]
        · exact hall q h1
      · refine Or.inr ⟨m', d', r', heq, List.mem_cons_of_mem _ hmem, hld, ?_, ?_⟩
        · intro q hq c hc
          rcases List.mem_cons.mp hq with h1 | h1
          · subst h1; simp [ldist, hploc] at hc
          · exact hmin q h1 c hc
        · intro q hq c hc hlt
          rcases List.mem_cons.mp hq with h1 | h1
          · subst h1; simp [ldist, hploc] at hc
          · exact hstrict q h1 c hc hlt
    | some loc =>
      have hstep : scanStep t (m0, none) p = (p.1, some (dist2 loc t)) := by
        simp [scanStep, hploc]
      rw [List.foldl_cons, hstep]
      obtain ⟨m', d', heq, hle, hmin, hB, hstrict⟩ :=
        foldl_scan_some t l p.1 (dist2 loc t) hhead htail
      right
      rcases hB with ⟨hm', hd'⟩ | ⟨r, hr, h1, h2⟩
      · subst hm'
        subst hd'
        refine ⟨p.1, dist2 loc t, p.2, heq, Prod.mk.eta ▸ List.mem_cons_self p l,
          by simp [ldist, hploc], ?_, ?_⟩
        · intro q hq c hc
          rcases List.mem_cons.mp hq with hq1 | hq1
          · subst hq1
            simp [ldist, hploc] at hc
            omega
          · exact hmin q hq1 c hc
        · intro q hq c hc hlt
          rcases List.mem_cons.mp hq with hq1 | hq1
          · subst hq1
            omega
          · exact hstrict q hq1 c hc hlt
      · refine ⟨m', d', r, heq, List.mem_cons_of_mem _ hr, h1, ?_, ?_⟩
        · intro q hq c hc
          rcases List.mem_cons.mp hq with hq1 | hq1
          · subst hq1
            simp [ldist, hploc] at hc
            omega
          · exact hmin q hq1 c hc
        · intro q hq c hc hlt
          rcases List.mem_cons.mp hq with hq1 | hq1
          · subst hq1
            simp [ldist, hploc] at hc
            omega
          · exact hstrict q hq1 c hc hlt

/-- Members of the availability filter are exactly index-correct available
riders. -/
theorem mem_avail_filter {s : RiderMatchingService} {p : Nat × Rider}
    (hp : p ∈ (enumFromNat 0 s.riders).filter (fun p => p.2.is_available)) :
    s.riders[p.1]? = some p.2 ∧ p.2.is_available = true := by
  have h1 := List.mem_filter.mp hp
  have h2 := mem_enumFromNat h1.1
  refine ⟨?_, by simpa using h1.2⟩
  simpa using h2.2

theorem avail_filter_mem {s : RiderMatchingService} {i : Nat} {r : Rider}
    (hget : s.riders[i]? = some r) (hav : r.is_available = true) :
    (i, r) ∈ (enumFromNat 0 s.riders).filter (fun p => p.2.is_available) := by
  refine List.mem_filter.mpr ⟨?_, by simpa using hav⟩
  have := enumFromNat_mem_of_getElem (n := 0) hget
  simpa using this

/-- Every successful `match_rider` picks an index holding an available
rider, flips it via `accept_ride`, and writes it back at the same index. -/
theorem match_rider_ok_char (s : RiderMatchingService) (t : Location) (r' : Rider)
    (s' : RiderMatchingService) (h : s.match_rider t = Except.ok (r', s')) :
    ∃ j rj, s.riders[j]? = some rj ∧ rj.is_available = true ∧
      r' = rj.accept_ride t ∧ s' = ⟨s.riders.set j r'⟩ := by
  unfold RiderMatchingService.match_rider at h
  cases hav : (enumFromNat 0 s.riders).filter (fun p => p.2.is_available) with
  | nil => rw [hav] at h; simp at h
  | cons p0 rest =>
    obtain ⟨i0, r0⟩ := p0
    rw [hav] at h
    simp only at h
    have hpw : ((i0, r0) :: rest).Pairwise (fun p q => p.1 < q.1) := by
      rw [← hav]
      exact (pairwise_enumFromNat s.riders 0).filter _
    rcases foldl_scan_none t ((i0, r0) :: rest) i0 hpw with
      ⟨heq, _⟩ | ⟨m', d', rr, heq, hmem, _, _, _⟩
    · rw [heq] at h
      have h0 := mem_avail_filter (s := s) (p := (i0, r0))
        (by rw [hav]; exact List.mem_cons_self _ _)
      simp only at h
      rw [h0.1] at h
      simp only at h
      rw [Except.ok.injEq, Prod.mk.injEq] at h
      refine ⟨i0, r0, h0.1, h0.2, h.1.symm, ?_⟩
      rw [← h.1]
      exact h.2.symm
    · rw [heq] at h
      have h0 := mem_avail_filter (s := s) (p := (m', rr)) (by rw [hav]; exact hmem)
      simp only at h
      rw [h0.1] at h
      simp only at h
      rw [Except.ok.injEq, Prod.mk.injEq] at h
      refine ⟨m', rr, h0.1, h0.2, h.1.symm, ?_⟩
      rw [← h.1]
      exact h.2.symm

/-! ### Claim C3: nearest-rider selection -/

/-- C3: if some rider is both available and located, `match_rider` succeeds
with an available located rider at minimal squared (hence minimal
Euclidean) distance to the target, every strictly earlier eligible rider
being strictly farther (earliest-registered wins ties), and flips exactly
that rider. -/
theorem c3_nearest_match (s : RiderMatchingService) (t : Location)
    (h : ∃ (i : Nat) (r : Rider) (loc : Location), s.riders[i]? = some r ∧
      r.is_available = true ∧ r.location = some loc) :
    ∃ (j : Nat) (rj : Rider) (locj : Location), s.riders[j]? = some rj ∧ rj.is_available = true ∧
      rj.location = some locj ∧
      (∀ (k : Nat) (rk : Rider) (lk : Location), s.riders[k]? = some rk → rk.is_available = true →
        rk.location = some lk → dist2 locj t ≤ dist2 lk t) ∧
      (∀ (k : Nat) (rk : Rider) (lk : Location), k < j → s.riders[k]? = some rk → rk.is_available = true →
        rk.location = some lk → dist2 locj t < dist2 lk t) ∧
      s.match_rider t =
        Except.ok (rj.accept_ride t, ⟨s.riders.set j (rj.accept_ride t)⟩) := by
  obtain ⟨i, r, loc, hget, havail, hloc⟩ := h
  have hinav := avail_filter_mem hget havail
  cases hav : (enumFromNat 0 s.riders).filter (fun p => p.2.is_available) with
  | nil => rw [hav] at hinav; cases hinav
  | cons p0 rest =>
    obtain ⟨i0, r0⟩ := p0
    have hpw : ((i0, r0) :: rest).Pairwise (fun p q => p.1 < q.1) := by
      rw [← hav]
      exact (pairwise_enumFromNat s.riders 0).filter _
    rcases foldl_scan_none t ((i0, r0) :: rest) i0 hpw with
      ⟨heq, hall⟩ | ⟨m', d', rr, heq, hmem, hld, hmin, hstrict⟩
    · exfalso
      rw [hav] at hinav
      have := hall (i, r) hinav
      simp [ldist, hloc] at this
    · have h0 := mem_avail_filter (s := s) (p := (m', rr)) (by rw [hav]; exact hmem)
      obtain ⟨locj, hlocj, hdj⟩ : ∃ locj, rr.location = some locj ∧ dist2 locj t = d' := by
        unfold ldist at hld
        cases hrl : rr.location with
        | none => rw [hrl] at hld; simp at hld
        | some l0 =>
          rw [hrl] at hld
          simp at hld
          exact ⟨l0, rfl, hld⟩
      refine ⟨m', rr, locj, h0.1, h0.2, hlocj, ?_, ?_, ?_⟩
      · intro k rk lk hk hkav hkloc
        have hkmem : (k, rk) ∈ (i0, r0) :: rest := by
          rw [← hav]
          exact avail_filter_mem hk hkav
        have := hmin (k, rk) hkmem (dist2 lk t) (by simp [ldist, hkloc])
        omega
      · intro k rk lk hklt hk hkav hkloc
        have hkmem : (k, rk) ∈ (i0, r0) :: rest := by
          rw [← hav]
          exact avail_filter_mem hk hkav
        have := hstrict (k, rk) hkmem (dist2 lk t) (by simp [ldist, hkloc]) hklt
        omega
      · unfold RiderMatchingService.match_rider
        rw [hav]
        simp only
        rw [heq]
        simp only
        rw [h0.1]

/-- C3 witness: riders at (2,2) and (3,3), target (1,2): the rider at
(2,2) (index 0, squared distance 1) is selected and flipped. -/
theorem c3_nearest_match_witness :
    (∃ (i : Nat) (r : Rider) (loc : Location),
      (RiderMatchingService.mk [Rider.mk "r1" (some ⟨2, 2⟩) none true,
        Rider.mk "r2" (some ⟨3, 3⟩) none true]).riders[i]? = some r ∧
      r.is_available = true ∧ r.location = some loc) ∧
    (∃ (j : Nat) (rj : Rider) (locj : Location),
      (RiderMatchingService.mk [Rider.mk "r1" (some ⟨2, 2⟩) none true,
        Rider.mk "r2" (some ⟨3, 3⟩) none true]).riders[j]? = some rj ∧
      rj.is_available = true ∧ rj.location = some locj ∧
      (∀ (k : Nat) (rk : Rider) (lk : Location),
        (RiderMatchingService.mk [Rider.mk "r1" (some ⟨2, 2⟩) none true,
          Rider.mk "r2" (some ⟨3, 3⟩) none true]).riders[k]? = some rk →
        rk.is_available = true → rk.location = some lk →
        dist2 locj ⟨1, 2⟩ ≤ dist2 lk ⟨1, 2⟩) ∧
      (∀ (k : Nat) (rk : Rider) (lk : Location), k < j →
        (RiderMatchingService.mk [Rider.mk "r1" (some ⟨2, 2⟩) none true,
          Rider.mk "r2" (some ⟨3, 3⟩) none true]).riders[k]? = some rk →
        rk.is_available = true → rk.location = some lk →
        dist2 locj ⟨1, 2⟩ < dist2 lk ⟨1, 2⟩) ∧
      (RiderMatchingService.mk [Rider.mk "r1" (some ⟨2, 2⟩) none true,
        Rider.mk "r2" (some ⟨3, 3⟩) none true]).match_rider ⟨1, 2⟩ =
        Except.ok (rj.accept_ride ⟨1, 2⟩,
          ⟨(RiderMatchingService.mk [Rider.mk "r1" (some ⟨2, 2⟩) none true,
            Rider.mk "r2" (some ⟨3, 3⟩) none true]).riders.set j
              (rj.accept_ride ⟨1, 2⟩)⟩)) :=
  ⟨⟨0, Rider.mk "r1" (some ⟨2, 2⟩) none true, ⟨2, 2⟩, by decide, rfl, rfl⟩,
    c3_nearest_match _ ⟨1, 2⟩
      ⟨0, Rider.mk "r1" (some ⟨2, 2⟩) none true, ⟨2, 2⟩, by decide, rfl, rfl⟩⟩

/-! ### Claim C2: availability filter (code bug at unlocated pools)
### Claim C4: post-match exclusivity -/

/-- C2 failing input: the pool holds a single *available but unlocated*
rider; the claim says `match_rider` must fail with the no-rider error, but
the code initialises `min_idx` to the first available rider regardless of
location and returns that unlocated rider as matched. -/
theorem c2_unlocated_rider_matched :
    (RiderMatchingService.mk [Rider.mk "r1" none none true]).match_rider ⟨0, 0⟩ =
      Except.ok (Rider.mk "r1" none (some ⟨0, 0⟩) false,
        RiderMatchingService.mk [Rider.mk "r1" none (some ⟨0, 0⟩) false]) := rfl

theorem unavailAt_applyPoolOp (s : RiderMatchingService) (op : PoolOp) (j : Nat)
    (h : unavailAt s j) : unavailAt (applyPoolOp s op) j := by
  obtain ⟨r, hget, hav⟩ := h
  have hlt : j < s.riders.length := (List.getElem?_eq_some.mp hget).1
  cases op with
  | push r2 =>
    refine ⟨r, ?_, hav⟩
    show (s.riders ++ [r2])[j]? = some r
    rw [List.getElem?_append]
    simp [hlt, hget]
  | tryMatch t =>
    show unavailAt (match s.match_rider t with
      | Except.ok (_, s2) => s2
      | Except.error _ => s) j
    cases hm : s.match_rider t with
    | error e => exact ⟨r, hget, hav⟩
    | ok pr =>
      obtain ⟨r2, s2⟩ := pr
      obtain ⟨j2, rj2, hget2, hav2, hr2, hs2⟩ := match_rider_ok_char s t r2 s2 hm
      subst hs2
      by_cases hjj : j2 = j
      · subst hjj
        refine ⟨r2, ?_, by rw [hr2]; rfl⟩
        show (s.riders.set j2 r2)[j2]? = some r2
        simp [List.getElem?_set, hlt]
      · refine ⟨r, ?_, hav⟩
        show (s.riders.set j2 r2)[j]? = some r
        simp [List.getElem?_set, hjj, hget]

theorem unavailAt_applyPoolOps (ops : List PoolOp) (s : RiderMatchingService)
    (j : Nat) (h : unavailAt s j) : unavailAt (applyPoolOps s ops) j := by
  induction ops generalizing s with
  | nil => exact h
  | cons op rest ih => exact ih _ (unavailAt_applyPoolOp s op j h)

/-- C4: a successful match flips the chosen rider to unavailable and records
the target; along any sequence of further pool operations that slot stays
unavailable, and every later successful match selects a different slot
(there is no release operation). -/
theorem c4_post_match_exclusivity (s : RiderMatchingService) (t : Location)
    (r' : Rider) (s' : RiderMatchingService)
    (h : s.match_rider t = Except.ok (r', s')) :
    r'.is_available = false ∧ r'.target_location = some t ∧
    ∃ j : Nat, s'.riders[j]? = some r' ∧
      (∃ rj : Rider, s.riders[j]? = some rj ∧ rj.is_available = true ∧
        r' = rj.accept_ride t) ∧
      ∀ ops : List PoolOp,
        unavailAt (applyPoolOps s' ops) j ∧
        ∀ t2 r2 s2,
          (applyPoolOps s' ops).match_rider t2 = Except.ok (r2, s2) →
          ∃ (j2 : Nat) (rj2 : Rider), j2 ≠ j ∧
            (applyPoolOps s' ops).riders[j2]? = some rj2 ∧
            rj2.is_available = true ∧ r2 = rj2.accept_ride t2 := by
  obtain ⟨j, rj, hget, hav, hr', hs'⟩ := match_rider_ok_char s t r' s' h
  have hlt : j < s.riders.length := (List.getElem?_eq_some.mp hget).1
  have hunav : r'.is_available = false := by rw [hr']; rfl
  have hget' : s'.riders[j]? = some r' := by
    rw [hs']
    show (s.riders.set j r')[j]? = some r'
    simp [List.getElem?_set, hlt]
  refine ⟨hunav, by rw [hr']; rfl, j, hget', ⟨rj, hget, hav, hr'⟩, ?_⟩
  intro ops
  have hkeep := unavailAt_applyPoolOps ops s' j ⟨r', hget', hunav⟩
  refine ⟨hkeep, ?_⟩
  intro t2 r2 s2 hm2
  obtain ⟨j2, rj2, hget2, hav2, hr2, _⟩ :=
    match_rider_ok_char (applyPoolOps s' ops) t2 r2 s2 hm2
  refine ⟨j2, rj2, ?_, hget2, hav2, hr2⟩
  intro hjj
  subst hjj
  obtain ⟨ru, hgetu, havu⟩ := hkeep
  rw [hget2] at hgetu
  cases hgetu
  rw [hav2] at havu
  cases havu

/-- C4 witness: one available located rider; a match flips it and it is
never re-selected. -/
theorem c4_post_match_exclusivity_witness :
    (RiderMatchingService.mk [Rider.mk "r1" (some ⟨0, 0⟩) none true]).match_rider
        ⟨1, 1⟩ =
      Except.ok (Rider.mk "r1" (some ⟨0, 0⟩) (some ⟨1, 1⟩) false,
        RiderMatchingService.mk [Rider.mk "r1" (some ⟨0, 0⟩) (some ⟨1, 1⟩) false]) ∧
    ((Rider.mk "r1" (some ⟨0, 0⟩) (some ⟨1, 1⟩) false).is_available = false ∧
      (Rider.mk "r1" (some ⟨0, 0⟩) (some ⟨1, 1⟩) false).target_location = some ⟨1, 1⟩ ∧
      ∃ j : Nat,
        (RiderMatchingService.mk
          [Rider.mk "r1" (some ⟨0, 0⟩) (some ⟨1, 1⟩) false]).riders[j]? =
            some (Rider.mk "r1" (some ⟨0, 0⟩) (some ⟨1, 1⟩) false) ∧
        (∃ rj : Rider,
          (RiderMatchingService.mk
            [Rider.mk "r1" (some ⟨0, 0⟩) none true]).riders[j]? = some rj ∧
          rj.is_available = true ∧
          Rider.mk "r1" (some ⟨0, 0⟩) (some ⟨1, 1⟩) false = rj.accept_ride ⟨1, 1⟩) ∧
        ∀ ops : List PoolOp,
          unavailAt (applyPoolOps
            (RiderMatchingService.mk
              [Rider.mk "r1" (some ⟨0, 0⟩) (some ⟨1, 1⟩) false]) ops) j ∧
          ∀ t2 r2 s2,
            (applyPoolOps (RiderMatchingService.mk
              [Rider.mk "r1" (some ⟨0, 0⟩) (some ⟨1, 1⟩) false]) ops).match_rider t2 =
                Except.ok (r2, s2) →
            ∃ (j2 : Nat) (rj2 : Rider), j2 ≠ j ∧
              (applyPoolOps (RiderMatchingService.mk
                [Rider.mk "r1" (some ⟨0, 0⟩) (some ⟨1, 1⟩) false]) ops).riders[j2]? =
                  some rj2 ∧
              rj2.is_available = true ∧ r2 = rj2.accept_ride t2) :=
  ⟨rfl, c4_post_match_exclusivity _ _ _ _ rfl⟩

/-! ### Claim C7: cart clears only on full success -/

/-- C7: a failed `process_order` leaves the cart manager untouched; a fully
successful one ends with the user's cart present and empty (the clear is
the final mutation). -/
theorem c7_cart_frame (z : Zomato) (u : User) (rid : String) :
    ((z.process_order u rid).1 ≠ Except.ok () →
      (z.process_order u rid).2.cart_manager = z.cart_manager) ∧
    ((z.process_order u rid).1 = Except.ok () →
      (z.process_order u rid).2.cart_manager.lookup u.id = some Cart.new) := by
  unfold Zomato.process_order
  cases hc : z.cart_manager.lookup u.id with
  | none => exact ⟨fun _ => rfl, fun h => by simp at h⟩
  | some cart =>
    cases hr : z.restaurants.lookup rid with
    | none => exact ⟨fun _ => rfl, fun h => by simp at h⟩
    | some r =>
      simp only
      cases hg : z.payment_manager.lookup u.id with
      | none => exact ⟨fun _ => rfl, fun h => by simp at h⟩
      | some gpay =>
        simp only
        cases hp : (gpay.pay (computeTotal cart r.menu)).1 with
        | error e => exact ⟨fun _ => rfl, fun h => by simp at h⟩
        | ok balance =>
          cases hm : z.rider_service.match_rider u.location with
          | error e => exact ⟨fun _ => rfl, fun h => by simp at h⟩
          | ok pr =>
            obtain ⟨rider, rs2⟩ := pr
            simp only
            cases hch : z.notification_manager.lookup u.id with
            | none => exact ⟨fun _ => rfl, fun h => by simp at h⟩
            | some chan =>
              simp only
              cases hn : chan.notify
                  (orderMessage (computeTotal cart r.menu) r.name rider.id balance) with
              | error e => exact ⟨fun _ => rfl, fun h => by simp at h⟩
              | ok u2 =>
                refine ⟨fun h => absurd rfl h, fun _ => ?_⟩
                show (alUpdate z.cart_manager u.id cart.clear).lookup u.id = some Cart.new
                rw [lookup_alUpdate, hc]
                rfl

/-- C7 witness: a state where the order succeeds end to end (cart emptied)
and the same state with an empty rider pool (order fails, cart intact). -/
theorem c7_cart_frame_witness :
    ((Zomato.mk [("1", emailInstr "e")] [("1", Gpay.mk "g" 100)]
        [("1", Cart.mk [("1", 2)])]
        (RiderMatchingService.mk [Rider.mk "r1" (some ⟨2, 2⟩) none true])
        [("1", Restaurant.mk "1" "KD" ⟨1, 1⟩ [("1", 12)])]).process_order
      (User.mk "1" "S" ⟨1, 2⟩) "1").1 = Except.ok () ∧
    ((Zomato.mk [("1", emailInstr "e")] [("1", Gpay.mk "g" 100)]
        [("1", Cart.mk [("1", 2)])]
        (RiderMatchingService.mk [Rider.mk "r1" (some ⟨2, 2⟩) none true])
        [("1", Restaurant.mk "1" "KD" ⟨1, 1⟩ [("1", 12)])]).process_order
      (User.mk "1" "S" ⟨1, 2⟩) "1").2.cart_manager.lookup "1" = some Cart.new ∧
    ((Zomato.mk [("1", emailInstr "e")] [("1", Gpay.mk "g" 100)]
        [("1", Cart.mk [("1", 2)])] (RiderMatchingService.mk [])
        [("1", Restaurant.mk "1" "KD" ⟨1, 1⟩ [("1", 12)])]).process_order
      (User.mk "1" "S" ⟨1, 2⟩) "1").1 ≠ Except.ok () ∧
    ((Zomato.mk [("1", emailInstr "e")] [("1", Gpay.mk "g" 100)]
        [("1", Cart.mk [("1", 2)])] (RiderMatchingService.mk [])
        [("1", Restaurant.mk "1" "KD" ⟨1, 1⟩ [("1", 12)])]).process_order
      (User.mk "1" "S" ⟨1, 2⟩) "1").2.cart_manager =
      [("1", Cart.mk [("1", 2)])] := by
  have hok : ((Zomato.mk [("1", emailInstr "e")] [("1", Gpay.mk "g" 100)]
      [("1", Cart.mk [("1", 2)])]
      (RiderMatchingService.mk [Rider.mk "r1" (some ⟨2, 2⟩) none true])
      [("1", Restaurant.mk "1" "KD" ⟨1, 1⟩ [("1", 12)])]).process_order
    (User.mk "1" "S" ⟨1, 2⟩) "1").1 = Except.ok () := rfl
  have hfail : ((Zomato.mk [("1", emailInstr "e")] [("1", Gpay.mk "g" 100)]
      [("1", Cart.mk [("1", 2)])] (RiderMatchingService.mk [])
      [("1", Restaurant.mk "1" "KD" ⟨1, 1⟩ [("1", 12)])]).process_order
    (User.mk "1" "S" ⟨1, 2⟩) "1").1 = Except.error CustomError.RiderError := rfl
  refine ⟨hok, (c7_cart_frame _ _ _).2 hok, ?_, ?_⟩
  · rw [hfail]
    simp
  · exact (c7_cart_frame _ _ _).1 (by rw [hfail]; simp)

theorem total_map_eq_filterMap (menu : List (String × Nat)) :
    ∀ items : List (String × Nat),
      (items.map fun p =>
        match menu.lookup p.1 with
        | some price => price * p.2
        | none => 0).sum =
      (items.filterMap fun p =>
        (menu.lookup p.1).map fun price => price * p.2).sum := by
  intro items
  induction items with
  | nil => rfl
  | cons p rest ih =>
    cases hl : menu.lookup p.1 with
    | none => simp [List.filterMap_cons, hl, ih]
    | some price => simp [List.filterMap_cons, hl, ih]

/-- A failing `Gpay.pay` only ever produces the payment-error kind. -/
theorem pay_fst_error (g : Gpay) (a : Nat) (e : CustomError)
    (h : (g.pay a).1 = Except.error e) : e = CustomError.PaymentError := by
  unfold Gpay.pay at h
  by_cases hle : a ≤ g.balance
  · rw [if_pos hle] at h
    simp at h
  · rw [if_neg hle] at h
    simp at h
    exact h.symm

/-- A failing `match_rider` only ever produces the rider-error kind (or the
unreachable index panic). -/
theorem match_rider_error_shape (s : RiderMatchingService) (t : Location)
    (e : CustomError) (h : s.match_rider t = Except.error e) :
    e = CustomError.RiderError ∨ e = CustomError.Other "index out of bounds" := by
  unfold RiderMatchingService.match_rider at h
  cases hav : (enumFromNat 0 s.riders).filter (fun p => p.2.is_available) with
  | nil =>
    rw [hav] at h
    simp at h
    exact Or.inl h.symm
  | cons p0 rest =>
    obtain ⟨i0, r0⟩ := p0
    rw [hav] at h
    simp only at h
    cases hg : s.riders[(((i0, r0) :: rest).foldl (scanStep t) (i0, none)).1]? with
    | none =>
      rw [hg] at h
      simp at h
      exact Or.inr h.symm
    | some r =>
      rw [hg] at h
      simp at h

/-- C5: the bill total of `process_order` equals the spec's sum of
`price × quantity` over menu-resolvable entries (an absent item is priced
zero and silently included), and with the cart and restaurant resolvable
the order is never aborted with the `OrderError` kind. -/
theorem c5_billing (z : Zomato) (u : User) (rid : String) (cart : Cart)
    (r : Restaurant)
    (hc : z.cart_manager.lookup u.id = some cart)
    (hr : z.restaurants.lookup rid = some r)
    (hch : ∀ ch msg, z.notification_manager.lookup u.id = some ch →
      ch.notify msg ≠ Except.error CustomError.OrderError) :
    computeTotal cart r.menu = specResolvableTotal cart r.menu ∧
    (z.process_order u rid).1 ≠ Except.error CustomError.OrderError := by
  refine ⟨total_map_eq_filterMap r.menu cart.items, ?_⟩
  unfold Zomato.process_order
  rw [hc, hr]
  simp only
  cases hg : z.payment_manager.lookup u.id with
  | none => simp
  | some gpay =>
    simp only
    cases hp : (gpay.pay (computeTotal cart r.menu)).1 with
    | error e =>
      have he := pay_fst_error _ _ _ hp
      subst he
      simp
    | ok balance =>
      cases hm : z.rider_service.match_rider u.location with
      | error e =>
        rcases match_rider_error_shape _ _ _ hm with h1 | h1 <;> subst h1 <;> simp
      | ok pr =>
        obtain ⟨rider, rs2⟩ := pr
        simp only
        cases hn : z.notification_manager.lookup u.id with
        | none => simp
        | some chan =>
          simp only
          cases hv : chan.notify
              (orderMessage (computeTotal cart r.menu) r.name rider.id balance) with
          | error e =>
            intro hcontra
            simp at hcontra
            subst hcontra
            exact hch chan _ hn hv
          | ok u2 => simp

/-- C5 witness: cart {A: qty 2, X: qty 3}, menu prices only A at 12; the
total counts X at zero and the order is not aborted with `OrderError`. -/
theorem c5_billing_witness :
    ((Zomato.mk [] [("1", Gpay.mk "g" 100)] [("1", Cart.mk [("A", 2), ("X", 3)])]
        (RiderMatchingService.mk [])
        [("1", Restaurant.mk "1" "KD" ⟨1, 1⟩ [("A", 12)])]).cart_manager.lookup "1" =
      some (Cart.mk [("A", 2), ("X", 3)])) ∧
    computeTotal (Cart.mk [("A", 2), ("X", 3)]) [("A", 12)] = 24 ∧
    (computeTotal (Cart.mk [("A", 2), ("X", 3)])
        (Restaurant.mk "1" "KD" (Location.mk 1 1) [("A", 12)]).menu =
      specResolvableTotal (Cart.mk [("A", 2), ("X", 3)])
        (Restaurant.mk "1" "KD" (Location.mk 1 1) [("A", 12)]).menu ∧
    ((Zomato.mk [] [("1", Gpay.mk "g" 100)] [("1", Cart.mk [("A", 2), ("X", 3)])]
        (RiderMatchingService.mk [])
        [("1", Restaurant.mk "1" "KD" ⟨1, 1⟩ [("A", 12)])]).process_order
      (User.mk "1" "S" ⟨1, 2⟩) "1").1 ≠ Except.error CustomError.OrderError) :=
  ⟨rfl, rfl,
    c5_billing _ (User.mk "1" "S" ⟨1, 2⟩) "1" (Cart.mk [("A", 2), ("X", 3)])
      (Restaurant.mk "1" "KD" (Location.mk 1 1) [("A", 12)]) rfl rfl
      (fun _ch _msg h => nomatch h)⟩

/-! ### Claim C1: no-rider behavior after payment capture
### Claim C9: notification failure -/

/-- C1 counterexample: payment account with balance 100, order totaling 24,
zero available riders: the order fails with the rider error but the final
balance is 76, not 100 — `process_order` issues no compensating refund. -/
theorem c1_refund_counterexample :
    ((Zomato.mk [] [("1", Gpay.mk "g" 100)] [("1", Cart.mk [("A", 2)])]
        (RiderMatchingService.mk [])
        [("1", Restaurant.mk "1" "KD" ⟨1, 1⟩ [("A", 12)])]).process_order
      (User.mk "1" "S" ⟨1, 2⟩) "1").1 = Except.error CustomError.RiderError ∧
    (((Zomato.mk [] [("1", Gpay.mk "g" 100)] [("1", Cart.mk [("A", 2)])]
        (RiderMatchingService.mk [])
        [("1", Restaurant.mk "1" "KD" ⟨1, 1⟩ [("A", 12)])]).process_order
      (User.mk "1" "S" ⟨1, 2⟩) "1").2.payment_manager.lookup "1").map
        Gpay.balance = some 76 ∧
    ¬ (((Zomato.mk [] [("1", Gpay.mk "g" 100)] [("1", Cart.mk [("A", 2)])]
        (RiderMatchingService.mk [])
        [("1", Restaurant.mk "1" "KD" ⟨1, 1⟩ [("A", 12)])]).process_order
      (User.mk "1" "S" ⟨1, 2⟩) "1").2.payment_manager.lookup "1").map
        Gpay.balance = some 100 := by
  refine ⟨rfl, rfl, ?_⟩
  intro h
  rw [show (((Zomato.mk [] [("1", Gpay.mk "g" 100)] [("1", Cart.mk [("A", 2)])]
      (RiderMatchingService.mk [])
      [("1", Restaurant.mk "1" "KD" ⟨1, 1⟩ [("A", 12)])]).process_order
    (User.mk "1" "S" ⟨1, 2⟩) "1").2.payment_manager.lookup "1").map
      Gpay.balance = some 76 from rfl] at h
  simp at h

/-- C1 amended: if payment capture succeeds (total T ≤ balance B) and no
rider is available, `process_order` returns the rider-unavailable failure
with the payment left captured: the final balance is B - T (no refund). -/
theorem c1_no_refund_on_rider_failure (z : Zomato) (u : User) (rid : String)
    (cart : Cart) (r : Restaurant) (g : Gpay)
    (hc : z.cart_manager.lookup u.id = some cart)
    (hr : z.restaurants.lookup rid = some r)
    (hg : z.payment_manager.lookup u.id = some g)
    (hT : computeTotal cart r.menu ≤ g.balance)
    (hnorider : (enumFromNat 0 z.rider_service.riders).filter
      (fun p => p.2.is_available) = []) :
    (z.process_order u rid).1 = Except.error CustomError.RiderError ∧
    (z.process_order u rid).2.payment_manager.lookup u.id =
      some { g with balance := g.balance - computeTotal cart r.menu } := by
  have hpay : g.pay (computeTotal cart r.menu) =
      (Except.ok (g.balance - computeTotal cart r.menu),
        { g with balance := g.balance - computeTotal cart r.menu }) := by
    simp [Gpay.pay, hT]
  have hmr : z.rider_service.match_rider u.location =
      Except.error CustomError.RiderError := by
    unfold RiderMatchingService.match_rider
    rw [hnorider]
  unfold Zomato.process_order
  rw [hc, hr]
  simp only
  rw [hg]
  simp only
  rw [hpay]
  simp only
  rw [hmr]
  simp only
  constructor
  · trivial
  · rw [lookup_alUpdate, hg]
    rfl

/-- C1 witness: the amended statement at the counterexample's input. -/
theorem c1_no_refund_witness :
    ((Zomato.mk [] [("1", Gpay.mk "g" 100)] [("1", Cart.mk [("A", 2)])]
        (RiderMatchingService.mk [])
        [("1", Restaurant.mk "1" "KD" ⟨1, 1⟩ [("A", 12)])]).process_order
      (User.mk "1" "S" ⟨1, 2⟩) "1").1 = Except.error CustomError.RiderError ∧
    ((Zomato.mk [] [("1", Gpay.mk "g" 100)] [("1", Cart.mk [("A", 2)])]
        (RiderMatchingService.mk [])
        [("1", Restaurant.mk "1" "KD" ⟨1, 1⟩ [("A", 12)])]).process_order
      (User.mk "1" "S" ⟨1, 2⟩) "1").2.payment_manager.lookup "1" =
      some { Gpay.mk "g" 100 with
        balance := (Gpay.mk "g" 100).balance -
          computeTotal (Cart.mk [("A", 2)])
            (Restaurant.mk "1" "KD" (Location.mk 1 1) [("A", 12)]).menu } :=
  c1_no_refund_on_rider_failure _ (User.mk "1" "S" ⟨1, 2⟩) "1"
    (Cart.mk [("A", 2)]) (Restaurant.mk "1" "KD" (Location.mk 1 1) [("A", 12)])
    (Gpay.mk "g" 100) rfl rfl rfl (by decide) rfl

/-- C9 counterexample: payment and rider matching succeed, then `notify`
fails: `process_order` aborts with the notification error and the cart is
NOT cleared — the order does not stand as a success. -/
theorem c9_notify_fatal_counterexample :
    ((Zomato.mk [("1", failingInstr)] [("1", Gpay.mk "g" 100)]
        [("1", Cart.mk [("A", 2)])]
        (RiderMatchingService.mk [Rider.mk "r1" (some ⟨2, 2⟩) none true])
        [("1", Restaurant.mk "1" "KD" ⟨1, 1⟩ [("A", 12)])]).process_order
      (User.mk "1" "S" ⟨1, 2⟩) "1").1 =
      Except.error CustomError.NotificationError ∧
    ((Zomato.mk [("1", failingInstr)] [("1", Gpay.mk "g" 100)]
        [("1", Cart.mk [("A", 2)])]
        (RiderMatchingService.mk [Rider.mk "r1" (some ⟨2, 2⟩) none true])
        [("1", Restaurant.mk "1" "KD" ⟨1, 1⟩ [("A", 12)])]).process_order
      (User.mk "1" "S" ⟨1, 2⟩) "1").2.cart_manager.lookup "1" =
      some (Cart.mk [("A", 2)]) := ⟨rfl, rfl⟩

/-- C9 amended: a `notify` failure after successful payment capture and
rider matching is fatal, not downgraded: the notification error is
propagated to the caller and the cart is not cleared. -/
theorem c9_notify_failure_aborts (z : Zomato) (u : User) (rid : String)
    (cart : Cart) (r : Restaurant) (g : Gpay) (chan : NotifInstr)
    (rider : Rider) (rs2 : RiderMatchingService) (e : CustomError)
    (hc : z.cart_manager.lookup u.id = some cart)
    (hr : z.restaurants.lookup rid = some r)
    (hg : z.payment_manager.lookup u.id = some g)
    (hT : computeTotal cart r.menu ≤ g.balance)
    (hm : z.rider_service.match_rider u.location = Except.ok (rider, rs2))
    (hch : z.notification_manager.lookup u.id = some chan)
    (hn : chan.notify (orderMessage (computeTotal cart r.menu) r.name rider.id
      (g.balance - computeTotal cart r.menu)) = Except.error e) :
    (z.process_order u rid).1 = Except.error e ∧
    (z.process_order u rid).2.cart_manager = z.cart_manager := by
  have hpay : g.pay (computeTotal cart r.menu) =
      (Except.ok (g.balance - computeTotal cart r.menu),
        { g with balance := g.balance - computeTotal cart r.menu }) := by
    simp [Gpay.pay, hT]
  unfold Zomato.process_order
  rw [hc, hr]
  simp only
  rw [hg]
  simp only
  rw [hpay]
  simp only
  rw [hm]
  simp only
  rw [hch]
  simp only
  rw [hn]
  exact ⟨rfl, rfl⟩

/-- C9 witness: the amended statement at the counterexample's input. -/
theorem c9_notify_failure_aborts_witness :
    ((Zomato.mk [("1", failingInstr)] [("1", Gpay.mk "g" 100)]
        [("1", Cart.mk [("A", 2)])]
        (RiderMatchingService.mk [Rider.mk "r1" (some ⟨2, 2⟩) none true])
        [("1", Restaurant.mk "1" "KD" ⟨1, 1⟩ [("A", 12)])]).process_order
      (User.mk "1" "S" ⟨1, 2⟩) "1").1 =
      Except.error CustomError.NotificationError ∧
    ((Zomato.mk [("1", failingInstr)] [("1", Gpay.mk "g" 100)]
        [("1", Cart.mk [("A", 2)])]
        (RiderMatchingService.mk [Rider.mk "r1" (some ⟨2, 2⟩) none true])
        [("1", Restaurant.mk "1" "KD" ⟨1, 1⟩ [("A", 12)])]).process_order
      (User.mk "1" "S" ⟨1, 2⟩) "1").2.cart_manager =
      [("1", Cart.mk [("A", 2)])] :=
  c9_notify_failure_aborts _ (User.mk "1" "S" ⟨1, 2⟩) "1" (Cart.mk [("A", 2)])
    (Restaurant.mk "1" "KD" (Location.mk 1 1) [("A", 12)]) (Gpay.mk "g" 100)
    failingInstr
    (Rider.mk "r1" (some ⟨2, 2⟩) (some ⟨1, 2⟩) false)
    (RiderMatchingService.mk [Rider.mk "r1" (some ⟨2, 2⟩) (some ⟨1, 2⟩) false])
    CustomError.NotificationError rfl rfl rfl (by decide) rfl rfl rfl

/-! ### Claim C10: empty attached cart -/

/-- Any pool holding at least one available rider yields a successful
match, and the matched rider comes back flipped to unavailable. -/
theorem match_rider_ok_of_avail (s : RiderMatchingService) (t : Location)
    (h : ∃ (i : Nat) (rd : Rider), s.riders[i]? = some rd ∧
      rd.is_available = true) :
    ∃ rd rs2, s.match_rider t = Except.ok (rd, rs2) ∧
      rd.is_available = false := by
  obtain ⟨i, rd0, hget, hav⟩ := h
  have hin := avail_filter_mem hget hav
  cases hav2 : (enumFromNat 0 s.riders).filter (fun p => p.2.is_available) with
  | nil => rw [hav2] at hin; cases hin
  | cons p0 rest =>
    obtain ⟨i0, r0⟩ := p0
    have hpw : ((i0, r0) :: rest).Pairwise (fun p q => p.1 < q.1) := by
      rw [← hav2]
      exact (pairwise_enumFromNat s.riders 0).filter _
    unfold RiderMatchingService.match_rider
    rw [hav2]
    simp only
    rcases foldl_scan_none t ((i0, r0) :: rest) i0 hpw with
      ⟨heq, _⟩ | ⟨m', d', rr, heq, hmem, _, _, _⟩
    · rw [heq]
      simp only
      have h0 := mem_avail_filter (s := s) (p := (i0, r0))
        (by rw [hav2]; exact List.mem_cons_self _ _)
      rw [h0.1]
      exact ⟨_, _, rfl, rfl⟩
    · rw [heq]
      simp only
      have h0 := mem_avail_filter (s := s) (p := (m', rr))
        (by rw [hav2]; exact hmem)
      rw [h0.1]
      exact ⟨_, _, rfl, rfl⟩

/-- C10: with an attached *empty* cart, a known restaurant, an attached
payment account of any balance, some available rider, and a channel that
never yields the order-error kind, `process_order` does not fail with
`OrderError` (in particular not with the no-cart error); the computed
total is 0, `pay 0` succeeds for every account leaving its balance
unchanged, and the rider match succeeds with the chosen rider flipped. -/
theorem c10_empty_cart_order (z : Zomato) (u : User) (rid : String)
    (r : Restaurant) (g : Gpay)
    (hc : z.cart_manager.lookup u.id = some Cart.new)
    (hr : z.restaurants.lookup rid = some r)
    (hg : z.payment_manager.lookup u.id = some g)
    (havail : ∃ (i : Nat) (rd : Rider), z.rider_service.riders[i]? = some rd ∧
      rd.is_available = true)
    (hch : ∀ ch msg, z.notification_manager.lookup u.id = some ch →
      ch.notify msg ≠ Except.error CustomError.OrderError) :
    (z.process_order u rid).1 ≠ Except.error CustomError.OrderError ∧
    computeTotal Cart.new r.menu = 0 ∧
    (∀ g2 : Gpay, g2.pay 0 = (Except.ok g2.balance, g2)) ∧
    (∃ rd rs2, z.rider_service.match_rider u.location = Except.ok (rd, rs2) ∧
      rd.is_available = false) := by
  have hpay0 : ∀ g2 : Gpay, g2.pay 0 = (Except.ok g2.balance, g2) := by
    intro g2
    simp [Gpay.pay]
  obtain ⟨rd, rs2, hmr, hflip⟩ := match_rider_ok_of_avail z.rider_service u.location havail
  refine ⟨?_, rfl, hpay0, rd, rs2, hmr, hflip⟩
  unfold Zomato.process_order
  rw [hc, hr]
  simp only
  rw [hg]
  simp only
  rw [show computeTotal Cart.new r.menu = 0 from rfl, hpay0 g]
  simp only
  rw [hmr]
  simp only
  cases hn : z.notification_manager.lookup u.id with
  | none => simp
  | some chan =>
    simp only
    cases hv : chan.notify (orderMessage 0 r.name rd.id g.balance) with
    | error e =>
      intro hcontra
      simp at hcontra
      subst hcontra
      exact hch chan _ hn hv
    | ok u2 => simp

/-- C10 witness: empty attached cart, balance 0, one available rider:
the order reaches past every cart/billing/payment step. -/
theorem c10_empty_cart_order_witness :
    ((Zomato.mk [] [("1", Gpay.mk "g" 0)] [("1", Cart.new)]
        (RiderMatchingService.mk [Rider.mk "r1" (some ⟨2, 2⟩) none true])
        [("1", Restaurant.mk "1" "KD" ⟨1, 1⟩ [("A", 12)])]).process_order
      (User.mk "1" "S" ⟨1, 2⟩) "1").1 ≠ Except.error CustomError.OrderError ∧
    computeTotal Cart.new
      (Restaurant.mk "1" "KD" (Location.mk 1 1) [("A", 12)]).menu = 0 ∧
    (∀ g2 : Gpay, g2.pay 0 = (Except.ok g2.balance, g2)) ∧
    (∃ rd rs2,
      (RiderMatchingService.mk
        [Rider.mk "r1" (some ⟨2, 2⟩) none true]).match_rider ⟨1, 2⟩ =
          Except.ok (rd, rs2) ∧
      rd.is_available = false) :=
  c10_empty_cart_order _ (User.mk "1" "S" ⟨1, 2⟩) "1"
    (Restaurant.mk "1" "KD" (Location.mk 1 1) [("A", 12)]) (Gpay.mk "g" 0)
    rfl rfl rfl
    ⟨0, Rider.mk "r1" (some ⟨2, 2⟩) none true, by decide, rfl⟩
    (fun _ch _msg h => nomatch h)

end ZomatoModel
